import Mathlib

/-!
# Verification of the solana-grpc-indexer ingestion pipeline

Shallow embedding of the repository's Rust sources:

* `src/ingest/src/yellowstone_client.rs` — wire-update decoding
  (`into_solana_account`, `into_solana_transaction`, `handle_grpc_stream`,
  `process_update`).
* `src/ingest/src/subscriptions.rs` — the subscription request.
* `src/processor/src/transformer.rs` — event → storage-row mapping.
* `src/processor/src/worker.rs` — the batching processor
  (`process_event`, `flush_accounts`, `flush_transactions`, `flush_slots`).
* `src/core/src/main.rs` — the stream-reading loop and its waits.

Rust strings are modelled as `List Char`, byte vectors as `List Nat`
(each entry < 256 in intended use), `u64` as `Nat`, and UTC timestamps as
an abstract `Nat` supplied explicitly where the source calls `Utc::now()`.
Fallible calls return `Except String`; the ClickHouse sink is an abstract
record of batch-insert functions, and each issued batch write is logged so
that theorems can speak about which writes a step performs.
-/

namespace SolGrpcIndexer

/-! ## Character-level encoding helpers (bs58, base64, decimal, hex) -/

/-- Decimal digit character, used when printing a `u64`; only applied to
values `< 10`. -/
def digitChar : Nat → Char
  | 0 => '0' | 1 => '1' | 2 => '2' | 3 => '3' | 4 => '4'
  | 5 => '5' | 6 => '6' | 7 => '7' | 8 => '8' | _ => '9'

/-- Lowercase hexadecimal digit character, as emitted by serde_json's
`\u00xy` control-character escapes; only applied to values `< 16`. -/
def hexDigitChar : Nat → Char
  | 0 => '0' | 1 => '1' | 2 => '2' | 3 => '3' | 4 => '4'
  | 5 => '5' | 6 => '6' | 7 => '7' | 8 => '8' | 9 => '9'
  | 10 => 'a' | 11 => 'b' | 12 => 'c' | 13 => 'd' | 14 => 'e' | _ => 'f'

def isDigitChar (c : Char) : Bool := 48 ≤ c.toNat && c.toNat ≤ 57

/-- Most-significant-first decimal digits of `n`, prepended to `acc`;
`fuel ≥ n` guarantees full unfolding. -/
def natToCharsAux : Nat → Nat → List Char → List Char
  | 0, _, acc => acc
  | fuel + 1, n, acc =>
    if n = 0 then acc else natToCharsAux fuel (n / 10) (digitChar (n % 10) :: acc)

/-- Decimal rendering of a `u64`, as serde_json serializes an unsigned
integer (no sign, no leading zeros, `0` for zero). -/
def natToChars (n : Nat) : List Char :=
  if n = 0 then ['0'] else natToCharsAux n n []

/-- Most-significant-first base-`base` digits of `n`, prepended to `acc`. -/
def toBaseAux (base : Nat) : Nat → Nat → List Nat → List Nat
  | 0, _, acc => acc
  | fuel + 1, n, acc =>
    if n = 0 then acc else toBaseAux base fuel (n / base) (n % base :: acc)

/-- The Bitcoin/IPFS base58 alphabet used by the `bs58` crate. -/
def bs58Alphabet : List Char :=
  "123456789ABCDEFGHJKLMNPQRSTUVWXYZabcdefghijkmnopqrstuvwxyz".toList

def bs58Char (d : Nat) : Char := bs58Alphabet.getD d '1'

/-- Number of leading zero bytes, each of which bs58 renders as `'1'`. -/
def countLeadingZeroBytes : List Nat → Nat
  | [] => 0
  | b :: bs => if b = 0 then countLeadingZeroBytes bs + 1 else 0

/-- `bs58::encode(bytes).into_string()`: leading zero bytes become `'1'`s,
the rest is the big-endian base-58 rendering of the byte string's value. -/
def bs58Encode (bytes : List Nat) : List Char :=
  let n := bytes.foldl (fun a b => a * 256 + b) 0
  List.replicate (countLeadingZeroBytes bytes) '1' ++
    (toBaseAux 58 n n []).map bs58Char

/-- The standard base64 alphabet, as in `base64::engine::general_purpose::STANDARD`. -/
def b64Alphabet : List Char :=
  "ABCDEFGHIJKLMNOPQRSTUVWXYZabcdefghijklmnopqrstuvwxyz0123456789+/".toList

def b64Char (d : Nat) : Char := b64Alphabet.getD d 'A'

/-- Standard base64 with `'='` padding, three input bytes per four output
characters. -/
def base64Encode : List Nat → List Char
  | [] => []
  | [a] => [b64Char (a / 4), b64Char (a % 4 * 16), '=', '=']
  | [a, b] => [b64Char (a / 4), b64Char (a % 4 * 16 + b / 16), b64Char (b % 16 * 4), '=']
  | a :: b :: c :: rest =>
    b64Char (a / 4) :: b64Char (a % 4 * 16 + b / 16) ::
      b64Char (b % 16 * 4 + c / 64) :: b64Char (c % 64) :: base64Encode rest

/-! ## serde_json serialization of the list-valued row fields

`serde_json::to_string` output for the field types that occur in
`ClickHouseTransaction`: `Vec<u64>`, `Vec<String>`, and
`Vec<TransactionInstruction>`; compact form, struct fields in declaration
order, strings escaped exactly as serde_json escapes them. -/

/-- serde_json's escape of one character inside a string literal. -/
def escapeChar (c : Char) : List Char :=
  if c = '"' then ['\\', '"']
  else if c = '\\' then ['\\', '\\']
  else if c = Char.ofNat 8 then ['\\', 'b']
  else if c = Char.ofNat 9 then ['\\', 't']
  else if c = Char.ofNat 10 then ['\\', 'n']
  else if c = Char.ofNat 12 then ['\\', 'f']
  else if c = Char.ofNat 13 then ['\\', 'r']
  else if c.toNat < 32 then
    ['\\', 'u', '0', '0', hexDigitChar (c.toNat / 16), hexDigitChar (c.toNat % 16)]
  else [c]

def escapeList : List Char → List Char
  | [] => []
  | c :: cs => escapeChar c ++ escapeList cs

/-- A JSON string literal: quote, escaped body, quote. -/
def encodeJsonString (s : List Char) : List Char :=
  '"' :: (escapeList s ++ ['"'])

/-- Comma-separated encodings of the elements. -/
def encodeSep (enc : α → List Char) : List α → List Char
  | [] => []
  | [x] => enc x
  | x :: xs => enc x ++ ',' :: encodeSep enc xs

/-- A JSON array in serde_json's compact form. -/
def encodeJsonList (enc : α → List Char) (xs : List α) : List Char :=
  '[' :: (encodeSep enc xs ++ [']'])

def jsonEncodeNatList (xs : List Nat) : List Char := encodeJsonList natToChars xs

def jsonEncodeStringList (xs : List (List Char)) : List Char :=
  encodeJsonList encodeJsonString xs

/-! ## Domain event types

Modelled from the spec: `ingest/src/types.rs` is not among the provided
sources; these declarations are reconstructed from §3 of the specification
and from every field use in `yellowstone_client.rs`, `transformer.rs` and
`worker.rs` (which pin each field's name and type). -/

structure TransactionInstruction where
  program_id : List Char
  accounts : List (List Char)
  data : List Char
  deriving Repr, DecidableEq

structure SolanaAccount where
  pubkey : List Char
  lamports : Nat
  owner : List Char
  executable : Bool
  rent_epoch : Nat
  data : List Char
  write_version : Nat
  txn_signature : Option (List Char)
  timestamp : Nat
  deriving Repr, DecidableEq

structure SolanaTransaction where
  signature : List Char
  slot : Nat
  is_vote : Bool
  index : Nat
  success : Bool
  fee : Option Nat
  compute_units_consumed : Option Nat
  pre_balances : List Nat
  post_balances : List Nat
  log_messages : List (List Char)
  account_keys : List (List Char)
  instructions : List TransactionInstruction
  deriving Repr, DecidableEq

/-- The tagged union dispatched by the processor; `Block` is accepted but
not persisted.  The `Slot` payload is a bare `u64` (see
`Transformer::transform_slot(slot: u64)`). -/
inductive IndexEvent where
  | Account (a : SolanaAccount)
  | Transaction (t : SolanaTransaction)
  | Slot (s : Nat)
  | Block (b : Unit)
  deriving Repr, DecidableEq

/-! ## Storage row types — `processor/src/clickhouse_types.rs` -/

structure ClickHouseTransaction where
  signature : List Char
  slot : Nat
  is_vote : Bool
  tx_index : Nat
  success : Bool
  fee : Option Nat
  compute_units_consumed : Option Nat
  timestamp : Nat
  pre_balances : List Char
  post_balances : List Char
  log_messages : List Char
  account_keys : List Char
  instructions : List Char
  deriving Repr, DecidableEq

structure ClickHouseAccount where
  pubkey : List Char
  lamports : Nat
  owner : List Char
  executable : Bool
  rent_epoch : Nat
  data : List Char
  write_version : Nat
  txn_signature : Option (List Char)
  timestamp : Nat
  deriving Repr, DecidableEq

structure ClickHouseSlot where
  slot : Nat
  timestamp : Nat
  deriving Repr, DecidableEq

/-! ## Transformer — `processor/src/transformer.rs`

`Transformer::transform_transaction` and `transform_slot` call
`Utc::now()`; that clock read is passed in as the explicit `now`
argument.  `transform_account` and `transform_transaction` return
`Result` in the source, but every path is `Ok` (serde_json serialization
of these field types is total), so the embeddings are total functions. -/

def transformAccount (account : SolanaAccount) : ClickHouseAccount :=
  { pubkey := account.pubkey
    lamports := account.lamports
    owner := account.owner
    executable := account.executable
    rent_epoch := account.rent_epoch
    data := account.data
    write_version := account.write_version
    txn_signature := account.txn_signature
    timestamp := account.timestamp }

/-- serde_json rendering of one `TransactionInstruction` (struct fields in
declaration order, as serde emits them). -/
def encodeInstruction (i : TransactionInstruction) : List Char :=
  "\x7b\"program_id\":".toList ++ encodeJsonString i.program_id ++
    ",\"accounts\":".toList ++ jsonEncodeStringList i.accounts ++
    ",\"data\":".toList ++ encodeJsonString i.data ++ ['}']

def jsonEncodeInstructionList (xs : List TransactionInstruction) : List Char :=
  encodeJsonList encodeInstruction xs

def transformTransaction (now : Nat) (tx : SolanaTransaction) : ClickHouseTransaction :=
  { signature := tx.signature
    slot := tx.slot
    is_vote := tx.is_vote
    tx_index := tx.index
    success := tx.success
    fee := tx.fee
    compute_units_consumed := tx.compute_units_consumed
    timestamp := now
    pre_balances := jsonEncodeNatList tx.pre_balances
    post_balances := jsonEncodeNatList tx.post_balances
    log_messages := jsonEncodeStringList tx.log_messages
    account_keys := jsonEncodeStringList tx.account_keys
    instructions := jsonEncodeInstructionList tx.instructions }

def transformSlot (now : Nat) (slot : Nat) : ClickHouseSlot :=
  { slot := slot, timestamp := now }

/-! ## Batching processor — `processor/src/worker.rs`

The ClickHouse client is abstracted to its three batch-insert entry
points; each invocation of one of them is recorded as a `Write` so the
theorems can state which storage batch writes a step issues. -/

inductive Write where
  | accounts (rows : List ClickHouseAccount)
  | transactions (rows : List ClickHouseTransaction)
  | slots (rows : List ClickHouseSlot)
  deriving Repr, DecidableEq

structure ClickhouseSink where
  batch_insert_accounts : List ClickHouseAccount → Except (List Char) Unit
  batch_insert_transactions : List ClickHouseTransaction → Except (List Char) Unit
  batch_insert_slots : List ClickHouseSlot → Except (List Char) Unit

structure Processor where
  tx_buffer : List ClickHouseTransaction
  account_buffer : List ClickHouseAccount
  slot_buffer : List ClickHouseSlot
  batch_size : Nat
  flush_interval : Nat
  deriving Repr, DecidableEq

/-- The pure part of `Processor::new`: empty buffers, `batch_size: 1000`,
`flush_interval: Duration::from_secs(5)`. -/
def initProcessor : Processor :=
  { tx_buffer := []
    account_buffer := []
    slot_buffer := []
    batch_size := 1000
    flush_interval := 5 }

/-- `Processor::flush_accounts`: empty buffer short-circuits with no
storage call; otherwise one batch insert is issued, the buffer is cleared
only on success, and an insert error is returned with the buffer intact. -/
def flushAccounts (ch : ClickhouseSink) (p : Processor) :
    Except (List Char) Unit × Processor × List Write :=
  if p.account_buffer = [] then (.ok (), p, [])
  else
    match ch.batch_insert_accounts p.account_buffer with
    | .ok _ => (.ok (), { p with account_buffer := [] }, [.accounts p.account_buffer])
    | .error e => (.error e, p, [.accounts p.account_buffer])

/-- `Processor::flush_transactions`, same shape as `flush_accounts`. -/
def flushTransactions (ch : ClickhouseSink) (p : Processor) :
    Except (List Char) Unit × Processor × List Write :=
  if p.tx_buffer = [] then (.ok (), p, [])
  else
    match ch.batch_insert_transactions p.tx_buffer with
    | .ok _ => (.ok (), { p with tx_buffer := [] }, [.transactions p.tx_buffer])
    | .error e => (.error e, p, [.transactions p.tx_buffer])

/-- `Processor::flush_slots`, same shape as `flush_accounts`. -/
def flushSlots (ch : ClickhouseSink) (p : Processor) :
    Except (List Char) Unit × Processor × List Write :=
  if p.slot_buffer = [] then (.ok (), p, [])
  else
    match ch.batch_insert_slots p.slot_buffer with
    | .ok _ => (.ok (), { p with slot_buffer := [] }, [.slots p.slot_buffer])
    | .error e => (.error e, p, [.slots p.slot_buffer])

/-- `Processor::process_event`: transform, push into the matching buffer,
flush that buffer's type when its length has reached `batch_size`
(propagating a flush error); `Block` is an explicit no-op. -/
def processEvent (ch : ClickhouseSink) (now : Nat) (p : Processor) (event : IndexEvent) :
    Except (List Char) Unit × Processor × List Write :=
  match event with
  | .Account account =>
    let p1 := { p with account_buffer := p.account_buffer ++ [transformAccount account] }
    if p.batch_size ≤ p1.account_buffer.length then flushAccounts ch p1
    else (.ok (), p1, [])
  | .Transaction transaction =>
    let p1 := { p with tx_buffer := p.tx_buffer ++ [transformTransaction now transaction] }
    if p.batch_size ≤ p1.tx_buffer.length then flushTransactions ch p1
    else (.ok (), p1, [])
  | .Slot slot =>
    let p1 := { p with slot_buffer := p.slot_buffer ++ [transformSlot now slot] }
    if p.batch_size ≤ p1.slot_buffer.length then flushSlots ch p1
    else (.ok (), p1, [])
  | .Block _ => (.ok (), p, [])

/-- `Processor::flush_all`: transactions, then accounts, then slots, each
`?`-propagating its error. -/
def flushAll (ch : ClickhouseSink) (p : Processor) :
    Except (List Char) Unit × Processor × List Write :=
  match flushTransactions ch p with
  | (.error e, p1, w1) => (.error e, p1, w1)
  | (.ok _, p1, w1) =>
    match flushAccounts ch p1 with
    | (.error e, p2, w2) => (.error e, p2, w1 ++ w2)
    | (.ok _, p2, w2) =>
      match flushSlots ch p2 with
      | (.error e, p3, w3) => (.error e, p3, w1 ++ w2 ++ w3)
      | (.ok _, p3, w3) => (.ok (), p3, w1 ++ w2 ++ w3)

/-! ## Yellowstone wire messages

The protobuf messages from `yellowstone_grpc_proto::geyser` that
`yellowstone_client.rs` reads, restricted to the fields it touches.
Byte strings are `List Nat`. -/

structure WireAccountInfo where
  pubkey : List Nat
  lamports : Nat
  owner : List Nat
  executable : Bool
  rent_epoch : Nat
  data : List Nat
  write_version : Nat
  txn_signature : Option (List Nat)
  deriving Repr, DecidableEq

structure SubscribeUpdateAccount where
  account : Option WireAccountInfo
  slot : Nat
  is_startup : Bool
  deriving Repr, DecidableEq

structure WireCompiledInstruction where
  program_id_index : Nat
  accounts : List Nat
  data : List Nat
  deriving Repr, DecidableEq

structure WireMessage where
  account_keys : List (List Nat)
  instructions : List WireCompiledInstruction
  deriving Repr, DecidableEq

structure WireTransaction where
  message : Option WireMessage
  deriving Repr, DecidableEq

structure WireTransactionStatusMeta where
  err : Option (List Nat)
  fee : Nat
  pre_balances : List Nat
  post_balances : List Nat
  log_messages : List (List Char)
  compute_units_consumed : Option Nat
  deriving Repr, DecidableEq

structure SubscribeUpdateTransactionInfo where
  signature : List Nat
  is_vote : Bool
  transaction : Option WireTransaction
  meta : Option WireTransactionStatusMeta
  index : Nat
  deriving Repr, DecidableEq

structure SubscribeUpdateTransaction where
  transaction : Option SubscribeUpdateTransactionInfo
  slot : Nat
  deriving Repr, DecidableEq

structure SubscribeUpdateSlot where
  slot : Nat
  deriving Repr, DecidableEq

/-- The payload kinds `process_update` dispatches on; every kind it
ignores is collapsed into `other`. -/
inductive UpdateOneof where
  | account (a : SubscribeUpdateAccount)
  | transaction (t : SubscribeUpdateTransaction)
  | slot (s : SubscribeUpdateSlot)
  | other
  deriving Repr, DecidableEq

structure SubscribeUpdate where
  update_oneof : Option UpdateOneof
  deriving Repr, DecidableEq

/-! ## Wire decoding — `ingest/src/yellowstone_client.rs` -/

/-- `YellowstoneClient::into_solana_account`: an absent inner `account`
sub-message yields `None`; otherwise the key bytes are base58-encoded,
the data bytes base64-encoded, and the capture timestamp (`Utc::now()`,
passed here as `now`) attached. -/
def intoSolanaAccount (now : Nat) (account_data : SubscribeUpdateAccount) :
    Option SolanaAccount :=
  match account_data.account with
  | some account_info =>
    some
      { pubkey := bs58Encode account_info.pubkey
        lamports := account_info.lamports
        owner := bs58Encode account_info.owner
        executable := account_info.executable
        rent_epoch := account_info.rent_epoch
        data := base64Encode account_info.data
        write_version := account_info.write_version
        txn_signature := account_info.txn_signature.map bs58Encode
        timestamp := now }
  | none => none

/-- One iteration of the instruction loop in `into_solana_transaction`:
an in-range `program_id_index` selects and base58-encodes the referenced
account key, an out-of-range one yields the empty string; instruction
account indices are resolved with checked lookups, silently dropping
out-of-range ones (`filter_map` over `get`). -/
def decodeInstruction (account_keys : List (List Nat)) (instruction : WireCompiledInstruction) :
    TransactionInstruction :=
  { program_id :=
      if h : instruction.program_id_index < account_keys.length then
        bs58Encode (account_keys.get ⟨instruction.program_id_index, h⟩)
      else []
    accounts := instruction.accounts.filterMap (fun id => (account_keys[id]?).map bs58Encode)
    data := base64Encode instruction.data }

/-- `YellowstoneClient::into_solana_transaction`: an absent outer
envelope yields `None`; with the envelope present an event is always
produced, defaulting every meta-derived field when the inner transaction
body or the metadata is absent. -/
def intoSolanaTransaction (transaction_update : SubscribeUpdateTransaction) :
    Option SolanaTransaction :=
  match transaction_update.transaction with
  | none => none
  | some transaction_info =>
    let parts :
        Bool × Option Nat × List Nat × List Nat × Option Nat × List (List Char) ×
          List TransactionInstruction × List (List Char) :=
      match transaction_info.transaction, transaction_info.meta with
      | some transaction, some meta =>
        let instructions :=
          match transaction.message with
          | some message => message.instructions.map (decodeInstruction message.account_keys)
          | none => []
        let account_keys :=
          match transaction.message with
          | some message => message.account_keys.map bs58Encode
          | none => []
        (meta.err.isNone, some meta.fee, meta.pre_balances, meta.post_balances,
          meta.compute_units_consumed, meta.log_messages, instructions, account_keys)
      | _, _ => (false, none, [], [], none, [], [], [])
    some
      { signature := bs58Encode transaction_info.signature
        slot := transaction_update.slot
        is_vote := transaction_info.is_vote
        index := transaction_info.index
        success := parts.1
        fee := parts.2.1
        pre_balances := parts.2.2.1
        post_balances := parts.2.2.2.1
        compute_units_consumed := parts.2.2.2.2.1
        log_messages := parts.2.2.2.2.2.1
        instructions := parts.2.2.2.2.2.2.1
        account_keys := parts.2.2.2.2.2.2.2 }

/-- `handle_account_update`: decode, log on success, always `Ok(())`
(logging is I/O and elided). -/
def handleAccountUpdate (now : Nat) (account_update : SubscribeUpdateAccount) :
    Except (List Char) Unit :=
  match intoSolanaAccount now account_update with
  | some _ => .ok ()
  | none => .ok ()

/-- `handle_transaction_update`: decode, log on success, always `Ok(())`. -/
def handleTransactionUpdate (transaction_update : SubscribeUpdateTransaction) :
    Except (List Char) Unit :=
  match intoSolanaTransaction transaction_update with
  | some _ => .ok ()
  | none => .ok ()

/-- `handle_slot_update`: log, `Ok(())`. -/
def handleSlotUpdate (_slot_update : SubscribeUpdateSlot) : Except (List Char) Unit :=
  .ok ()

/-- `process_update`: dispatch by payload kind, ignoring every other
kind. -/
def processUpdate (now : Nat) (update : SubscribeUpdate) : Except (List Char) Unit :=
  match update.update_oneof with
  | some (.account account_update) => handleAccountUpdate now account_update
  | some (.transaction transaction_update) => handleTransactionUpdate transaction_update
  | some (.slot slot_update) => handleSlotUpdate slot_update
  | some .other => .ok ()
  | none => .ok ()

/-- `handle_grpc_stream` over a finite stream modelled as the list of its
items: each `Ok` update is processed (with `?`-propagation), the first
error item stops the loop and is returned, and exhausting the stream —
the server closing it — logs a warning and returns `Ok(())`. -/
def handleGrpcStream (now : Nat) :
    List (Except (List Char) SubscribeUpdate) → Except (List Char) Unit
  | [] => .ok ()
  | .ok update :: rest =>
    match processUpdate now update with
    | .ok _ => handleGrpcStream now rest
    | .error e => .error e
  | .error e :: _ => .error e

/-! ## Subscription request — `ingest/src/subscriptions.rs` -/

structure SubscribeRequestFilterAccounts where
  account : List String
  nonempty_txn_signature : Option Bool
  owner : List String
  filters : List String
  deriving Repr, DecidableEq

structure SubscribeRequestFilterTransactions where
  account_include : List String
  account_exclude : List String
  account_required : List String
  vote : Option Bool
  failed : Option Bool
  signature : Option String
  deriving Repr, DecidableEq

/-- The subscription request; the `HashMap` filter maps are modelled as
association lists, the unused empty maps as empty lists, and
`CommitmentLevel::Confirmed as i32` as its numeric value `1`. -/
structure SubscribeRequest where
  accounts : List (String × SubscribeRequestFilterAccounts)
  transactions : List (String × SubscribeRequestFilterTransactions)
  slots : List String
  blocks : List String
  blocks_meta : List String
  transactions_status : List String
  entry : List String
  commitment : Option Nat
  accounts_data_slice : List Unit
  ping : Option Unit
  from_slot : Option Nat
  deriving Repr, DecidableEq

/-- `Subscriptions::create_subscriptions`, field for field. -/
def createSubscriptions : SubscribeRequest :=
  { accounts :=
      [("dexs_accounts",
        { account :=
            ["JUP6LkbZbjS1jKKwapdHNy74zcZ3tLUZoi5QNyVTaV4",
             "675kPX9MHTjS2zt1qfr1NYHuzeLXfQM9H24wFSUt1Mp8",
             "cpamdpZCGKUy5JxQXB4dcpGPiikHawvSWAd6mEn1sGG",
             "whirLbMiicVdio4qvUfM5KAg6Ct8VwpYzGff3uctyCc"]
          nonempty_txn_signature := none
          owner := []
          filters := [] })]
    transactions :=
      [("dexs_transactions",
        { account_include :=
            ["whirLbMiicVdio4qvUfM5KAg6Ct8VwpYzGff3uctyCc",
             "675kPX9MHTjS2zt1qfr1NYHuzeLXfQM9H24wFSUt1Mp8",
             "cpamdpZCGKUy5JxQXB4dcpGPiikHawvSWAd6mEn1sGG",
             "JUP6LkbZbjS1jKKwapdHNy74zcZ3tLUZoi5QNyVTaV4"]
          account_exclude := []
          account_required := []
          vote := some false
          failed := some false
          signature := none })]
    slots := []
    blocks := []
    blocks_meta := []
    transactions_status := []
    entry := []
    commitment := some 1
    accounts_data_slice := []
    ping := none
    from_slot := none }

/-! ## Core stream loop — `core/src/main.rs`

The `while let Some(message) = rx.next()` loop: an `Ok` message is
printed and the loop continues; an `Err` message is printed and the task
sleeps `Duration::from_secs(1)` before continuing on the same stream;
stream exhaustion exits the loop and `main` returns `Ok(())`.  The
embedding returns the ordered list of sleep durations (in seconds) the
loop issues. -/
def mainStreamLoopSleeps : List (Except (List Char) SubscribeUpdate) → List Nat
  | [] => []
  | .ok _ :: rest => mainStreamLoopSleeps rest
  | .error _ :: rest => 1 :: mainStreamLoopSleeps rest

/-! ## Concrete fixtures used by witnesses -/

/-- A sink whose batch inserts all succeed. -/
def chOkW : ClickhouseSink :=
  { batch_insert_accounts := fun _ => .ok ()
    batch_insert_transactions := fun _ => .ok ()
    batch_insert_slots := fun _ => .ok () }

/-- A sink whose batch inserts all fail with the error `"boom"`. -/
def chErrW : ClickhouseSink :=
  { batch_insert_accounts := fun _ => .error "boom".toList
    batch_insert_transactions := fun _ => .error "boom".toList
    batch_insert_slots := fun _ => .error "boom".toList }

def accEvW : SolanaAccount :=
  { pubkey := "pk".toList, lamports := 100, owner := "ow".toList, executable := false
    rent_epoch := 3, data := "ZGF0YQ==".toList, write_version := 1
    txn_signature := none, timestamp := 7 }

def txEvW : SolanaTransaction :=
  { signature := "sig".toList, slot := 42, is_vote := false, index := 0, success := true
    fee := some 5000, compute_units_consumed := some 150
    pre_balances := [10, 20], post_balances := [8, 22]
    log_messages := ["ok".toList], account_keys := ["k1".toList, "k2".toList]
    instructions := [] }

/-- A processor state with `batch_size = 2` and one buffered account row. -/
def pW : Processor :=
  { tx_buffer := []
    account_buffer := [transformAccount accEvW]
    slot_buffer := []
    batch_size := 2
    flush_interval := 5 }

def metaW : WireTransactionStatusMeta :=
  { err := none, fee := 5000, pre_balances := [1, 2], post_balances := [3, 4]
    log_messages := ["log".toList], compute_units_consumed := some 10 }

/-- An instruction whose `program_id_index` (5) is out of range for a
two-key message. -/
def oorInstrW : WireCompiledInstruction :=
  { program_id_index := 5, accounts := [0, 9], data := [1, 2, 3] }

def msgW : WireMessage :=
  { account_keys := [[0, 1], [2]], instructions := [oorInstrW] }

def txInfoFullW : SubscribeUpdateTransactionInfo :=
  { signature := [1, 2, 3], is_vote := false
    transaction := some { message := some msgW }, meta := some metaW, index := 0 }

def txUpdFullW : SubscribeUpdateTransaction :=
  { transaction := some txInfoFullW, slot := 7 }

def txInfoNoMetaW : SubscribeUpdateTransactionInfo :=
  { signature := [0, 1], is_vote := false
    transaction := some { message := some { account_keys := [[1], [2]], instructions := [] } }
    meta := none, index := 3 }

def txUpdNoMetaW : SubscribeUpdateTransaction :=
  { transaction := some txInfoNoMetaW, slot := 9 }

def accInfoW : WireAccountInfo :=
  { pubkey := [0, 255], lamports := 10, owner := [7], executable := true
    rent_epoch := 2, data := [77, 97, 110], write_version := 4, txn_signature := some [1] }

def accUpdNoneW : SubscribeUpdateAccount := { account := none, slot := 1, is_startup := false }

def accUpdSomeW : SubscribeUpdateAccount :=
  { account := some accInfoW, slot := 2, is_startup := false }

/-- The transaction filter of `create_subscriptions`, repeated for the
amended-claim witness. -/
def dexsTxFilterW : SubscribeRequestFilterTransactions :=
  { account_include :=
      ["whirLbMiicVdio4qvUfM5KAg6Ct8VwpYzGff3uctyCc",
       "675kPX9MHTjS2zt1qfr1NYHuzeLXfQM9H24wFSUt1Mp8",
       "cpamdpZCGKUy5JxQXB4dcpGPiikHawvSWAd6mEn1sGG",
       "JUP6LkbZbjS1jKKwapdHNy74zcZ3tLUZoi5QNyVTaV4"]
    account_exclude := []
    account_required := []
    vote := some false
    failed := some false
    signature := none }

/-! ## A JSON decoder for the serialized list fields

`transformer.rs` serializes the list-valued row fields with
`serde_json::to_string`; the downstream contract is that each such field
holds a valid serialized list.  The decoders below are an executable
embedding of `serde_json::from_str` restricted to the three shapes the
transformer emits — `Vec<u64>`, `Vec<String>` and
`Vec<TransactionInstruction>` in serde's compact form — used to state
that deserializing a produced field recovers the source list exactly. -/

/-- Value of one hexadecimal digit character. -/
def hexVal (c : Char) : Option Nat :=
  if 48 ≤ c.toNat ∧ c.toNat ≤ 57 then some (c.toNat - 48)
  else if 97 ≤ c.toNat ∧ c.toNat ≤ 102 then some (c.toNat - 87)
  else if 65 ≤ c.toNat ∧ c.toNat ≤ 70 then some (c.toNat - 55)
  else none

/-- Inverse of the simple (non-`\u`) escapes of a JSON string. -/
def unescapeChar (e : Char) : Option Char :=
  if e = '"' then some '"'
  else if e = '\\' then some '\\'
  else if e = '/' then some '/'
  else if e = 'b' then some (Char.ofNat 8)
  else if e = 't' then some (Char.ofNat 9)
  else if e = 'n' then some (Char.ofNat 10)
  else if e = 'f' then some (Char.ofNat 12)
  else if e = 'r' then some (Char.ofNat 13)
  else none

/-- Parse the body of a JSON string literal after its opening quote,
returning the decoded characters and the input after the closing
quote. -/
def parseStringBody : List Char → Option (List Char × List Char)
  | [] => none
  | c :: rest =>
    if c = '"' then some ([], rest)
    else if c = '\\' then
      match rest with
      | [] => none
      | e :: rest2 =>
        if e = 'u' then
          match rest2 with
          | h1 :: h2 :: h3 :: h4 :: rest3 =>
            match hexVal h1, hexVal h2, hexVal h3, hexVal h4 with
            | some a, some b, some c2, some d =>
              (parseStringBody rest3).map
                (fun p => (Char.ofNat (((a * 16 + b) * 16 + c2) * 16 + d) :: p.1, p.2))
            | _, _, _, _ => none
          | _ => none
        else
          match unescapeChar e with
          | some u => (parseStringBody rest2).map (fun p => (u :: p.1, p.2))
          | none => none
    else (parseStringBody rest).map (fun p => (c :: p.1, p.2))

/-- Parse a JSON string literal. -/
def parseJsonString : List Char → Option (List Char × List Char)
  | c :: rest => if c = '"' then parseStringBody rest else none
  | [] => none

/-- Consume a maximal run of decimal digits, accumulating their value. -/
def parseNatAux : Nat → List Char → Nat × List Char
  | acc, [] => (acc, [])
  | acc, c :: rest =>
    if isDigitChar c then parseNatAux (acc * 10 + (c.toNat - 48)) rest
    else (acc, c :: rest)

/-- Parse an unsigned JSON number (at least one digit). -/
def parseJsonNat : List Char → Option (Nat × List Char)
  | [] => none
  | c :: rest => if isDigitChar c then some (parseNatAux 0 (c :: rest)) else none

/-- Parse the elements of a nonempty JSON array after its `'['`, with an
element parser `pe`; `fuel` bounds the number of elements. -/
def parseListAux (pe : List Char → Option (α × List Char)) :
    Nat → List Char → Option (List α × List Char)
  | 0, _ => none
  | fuel + 1, l =>
    match pe l with
    | none => none
    | some (x, r) =>
      match r with
      | [] => none
      | c :: r2 =>
        if c = ',' then
          match parseListAux pe fuel r2 with
          | some (xs, r3) => some (x :: xs, r3)
          | none => none
        else if c = ']' then some ([x], r2)
        else none

/-- Parse a JSON array with element parser `pe`. -/
def parseJsonList (pe : List Char → Option (α × List Char)) :
    List Char → Option (List α × List Char)
  | [] => none
  | c :: rest =>
    if c = '[' then
      match rest with
      | [] => none
      | d :: _ =>
        if d = ']' then some ([], rest.tail)
        else parseListAux pe (rest.length + 1) rest
    else none

/-- Consume an expected literal run of characters. -/
def dropLead : List Char → List Char → Option (List Char)
  | [], l => some l
  | _ :: _, [] => none
  | p :: ps, c :: cs => if c = p then dropLead ps cs else none

/-- Parse one serialized `TransactionInstruction` object in serde's field
order: `{"program_id":…,"accounts":…,"data":…}`. -/
def parseInstruction (l : List Char) : Option (TransactionInstruction × List Char) :=
  match dropLead "\x7b\"program_id\":".toList l with
  | none => none
  | some l1 =>
    match parseJsonString l1 with
    | none => none
    | some (pid, l2) =>
      match dropLead ",\"accounts\":".toList l2 with
      | none => none
      | some l3 =>
        match parseJsonList parseJsonString l3 with
        | none => none
        | some (accs, l4) =>
          match dropLead ",\"data\":".toList l4 with
          | none => none
          | some l5 =>
            match parseJsonString l5 with
            | none => none
            | some (dat, l6) =>
              match l6 with
              | c :: l7 =>
                if c = '}' then
                  some ({ program_id := pid, accounts := accs, data := dat }, l7)
                else none
              | [] => none

/-- `serde_json::from_str::<Vec<u64>>`, requiring full consumption. -/
def jsonDecodeNatList (l : List Char) : Option (List Nat) :=
  match parseJsonList parseJsonNat l with
  | some (xs, []) => some xs
  | _ => none

/-- `serde_json::from_str::<Vec<String>>`, requiring full consumption. -/
def jsonDecodeStringList (l : List Char) : Option (List (List Char)) :=
  match parseJsonList parseJsonString l with
  | some (xs, []) => some xs
  | _ => none

/-- `serde_json::from_str::<Vec<TransactionInstruction>>`, requiring full
consumption. -/
def jsonDecodeInstructionList (l : List Char) : Option (List TransactionInstruction) :=
  match parseJsonList parseInstruction l with
  | some (xs, []) => some xs
  | _ => none

/-- Number of decimal digits `natToCharsAux` emits for `n` at a given
fuel. -/
def numDigitsF : Nat → Nat → Nat
  | 0, _ => 0
  | fuel + 1, n => if n = 0 then 0 else numDigitsF fuel (n / 10) + 1

/-! ## C1 — flush clears a buffer exactly when the batch insert succeeds -/

/-- **C1.** For each of the three buffer types, a flush of an empty buffer
issues no batch write and leaves the state unchanged; a flush of a
nonempty buffer issues exactly one batch write, and the buffer ends empty
iff that write succeeded: on success the buffer is cleared (other state
untouched), on failure the insert error is returned to the caller and the
whole processor state — in particular the buffer, in order — is exactly
what it was before the flush. -/
theorem flush_clears_buffer_iff_insert_succeeds (ch : ClickhouseSink) (p : Processor) :
    ((p.account_buffer = [] → flushAccounts ch p = (.ok (), p, [])) ∧
      (p.account_buffer ≠ [] →
        ((flushAccounts ch p).2.1.account_buffer = [] ↔
          ch.batch_insert_accounts p.account_buffer = .ok ()) ∧
        (ch.batch_insert_accounts p.account_buffer = .ok () →
          flushAccounts ch p =
            (.ok (), { p with account_buffer := [] }, [.accounts p.account_buffer])) ∧
        (∀ e, ch.batch_insert_accounts p.account_buffer = .error e →
          flushAccounts ch p = (.error e, p, [.accounts p.account_buffer])))) ∧
    ((p.tx_buffer = [] → flushTransactions ch p = (.ok (), p, [])) ∧
      (p.tx_buffer ≠ [] →
        ((flushTransactions ch p).2.1.tx_buffer = [] ↔
          ch.batch_insert_transactions p.tx_buffer = .ok ()) ∧
        (ch.batch_insert_transactions p.tx_buffer = .ok () →
          flushTransactions ch p =
            (.ok (), { p with tx_buffer := [] }, [.transactions p.tx_buffer])) ∧
        (∀ e, ch.batch_insert_transactions p.tx_buffer = .error e →
          flushTransactions ch p = (.error e, p, [.transactions p.tx_buffer])))) ∧
    ((p.slot_buffer = [] → flushSlots ch p = (.ok (), p, [])) ∧
      (p.slot_buffer ≠ [] →
        ((flushSlots ch p).2.1.slot_buffer = [] ↔
          ch.batch_insert_slots p.slot_buffer = .ok ()) ∧
        (ch.batch_insert_slots p.slot_buffer = .ok () →
          flushSlots ch p =
            (.ok (), { p with slot_buffer := [] }, [.slots p.slot_buffer])) ∧
        (∀ e, ch.batch_insert_slots p.slot_buffer = .error e →
          flushSlots ch p = (.error e, p, [.slots p.slot_buffer])))) := by
  refine ⟨⟨fun h => by simp [flushAccounts, h], fun hne => ?_⟩,
          ⟨fun h => by simp [flushTransactions, h], fun hne => ?_⟩,
          ⟨fun h => by simp [flushSlots, h], fun hne => ?_⟩⟩
  · cases hsink : ch.batch_insert_accounts p.account_buffer with
    | ok u => cases u; simp [flushAccounts, hne, hsink]
    | error e => simp [flushAccounts, hne, hsink]
  · cases hsink : ch.batch_insert_transactions p.tx_buffer with
    | ok u => cases u; simp [flushTransactions, hne, hsink]
    | error e => simp [flushTransactions, hne, hsink]
  · cases hsink : ch.batch_insert_slots p.slot_buffer with
    | ok u => cases u; simp [flushSlots, hne, hsink]
    | error e => simp [flushSlots, hne, hsink]

/-- Witness for C1 at a concrete failing and a concrete succeeding sink. -/
theorem flush_clears_buffer_iff_insert_succeeds_witness :
    flushAccounts chErrW pW = (.error "boom".toList, pW, [.accounts pW.account_buffer]) ∧
    flushAccounts chOkW pW =
      (.ok (), { pW with account_buffer := [] }, [.accounts pW.account_buffer]) := by
  constructor
  · exact (((flush_clears_buffer_iff_insert_succeeds chErrW pW).1.2
      (by simp [pW])).2.2) "boom".toList rfl
  · exact (((flush_clears_buffer_iff_insert_succeeds chOkW pW).1.2
      (by simp [pW])).2.1) rfl

/-! ## C2 — arrival appends one row and flushes exactly at the threshold -/

/-- **C2.** The default `batch_size` is 1000; and for every sink, state
and incoming event of a persisted variant, `process_event` appends
exactly the one transformed row to the matching buffer and then issues a
storage batch write for that buffer's type iff the buffer's new length
has reached `batch_size`: below the threshold the call returns `Ok` with
the appended buffer and an empty write log, and at or above the threshold
the write log is exactly the one batch write of the matching type
carrying the appended buffer, the other two buffers being left alone. -/
theorem process_event_appends_and_flushes_at_threshold
    (ch : ClickhouseSink) (now : Nat) (p : Processor) :
    initProcessor.batch_size = 1000 ∧
    (∀ a : SolanaAccount,
      (p.account_buffer.length + 1 < p.batch_size →
        processEvent ch now p (.Account a) =
          (.ok (), { p with account_buffer := p.account_buffer ++ [transformAccount a] }, [])) ∧
      (p.batch_size ≤ p.account_buffer.length + 1 →
        (processEvent ch now p (.Account a)).2.2 =
          [Write.accounts (p.account_buffer ++ [transformAccount a])] ∧
        (processEvent ch now p (.Account a)).2.1.tx_buffer = p.tx_buffer ∧
        (processEvent ch now p (.Account a)).2.1.slot_buffer = p.slot_buffer)) ∧
    (∀ t : SolanaTransaction,
      (p.tx_buffer.length + 1 < p.batch_size →
        processEvent ch now p (.Transaction t) =
          (.ok (), { p with tx_buffer := p.tx_buffer ++ [transformTransaction now t] }, [])) ∧
      (p.batch_size ≤ p.tx_buffer.length + 1 →
        (processEvent ch now p (.Transaction t)).2.2 =
          [Write.transactions (p.tx_buffer ++ [transformTransaction now t])] ∧
        (processEvent ch now p (.Transaction t)).2.1.account_buffer = p.account_buffer ∧
        (processEvent ch now p (.Transaction t)).2.1.slot_buffer = p.slot_buffer)) ∧
    (∀ s : Nat,
      (p.slot_buffer.length + 1 < p.batch_size →
        processEvent ch now p (.Slot s) =
          (.ok (), { p with slot_buffer := p.slot_buffer ++ [transformSlot now s] }, [])) ∧
      (p.batch_size ≤ p.slot_buffer.length + 1 →
        (processEvent ch now p (.Slot s)).2.2 =
          [Write.slots (p.slot_buffer ++ [transformSlot now s])] ∧
        (processEvent ch now p (.Slot s)).2.1.tx_buffer = p.tx_buffer ∧
        (processEvent ch now p (.Slot s)).2.1.account_buffer = p.account_buffer)) := by
  refine ⟨rfl, fun a => ⟨fun hlt => ?_, fun hge => ?_⟩,
          fun t => ⟨fun hlt => ?_, fun hge => ?_⟩,
          fun s => ⟨fun hlt => ?_, fun hge => ?_⟩⟩
  · have hc : ¬ p.batch_size ≤ p.account_buffer.length + 1 := by omega
    simp [processEvent, hc]
  · cases hsink : ch.batch_insert_accounts (p.account_buffer ++ [transformAccount a]) with
    | ok u => cases u; simp [processEvent, hge, flushAccounts, hsink]
    | error e => simp [processEvent, hge, flushAccounts, hsink]
  · have hc : ¬ p.batch_size ≤ p.tx_buffer.length + 1 := by omega
    simp [processEvent, hc]
  · cases hsink : ch.batch_insert_transactions (p.tx_buffer ++ [transformTransaction now t]) with
    | ok u => cases u; simp [processEvent, hge, flushTransactions, hsink]
    | error e => simp [processEvent, hge, flushTransactions, hsink]
  · have hc : ¬ p.batch_size ≤ p.slot_buffer.length + 1 := by omega
    simp [processEvent, hc]
  · cases hsink : ch.batch_insert_slots (p.slot_buffer ++ [transformSlot now s]) with
    | ok u => cases u; simp [processEvent, hge, flushSlots, hsink]
    | error e => simp [processEvent, hge, flushSlots, hsink]

/-- Witness for C2: a below-threshold transaction arrival only appends,
and an at-threshold account arrival issues exactly the one account batch
write. -/
theorem process_event_appends_and_flushes_at_threshold_witness :
    processEvent chOkW 0 pW (.Transaction txEvW) =
      (.ok (), { pW with tx_buffer := pW.tx_buffer ++ [transformTransaction 0 txEvW] }, []) ∧
    (processEvent chOkW 0 pW (.Account accEvW)).2.2 =
      [Write.accounts (pW.account_buffer ++ [transformAccount accEvW])] := by
  constructor
  · exact ((process_event_appends_and_flushes_at_threshold chOkW 0 pW).2.2.1 txEvW).1
      (by simp [pW])
  · exact (((process_event_appends_and_flushes_at_threshold chOkW 0 pW).2.1 accEvW).2
      (by simp [pW])).1

/-! ## C10 — processing preserves the strict buffer bound -/

/-- **C10.** If every buffer is strictly below `batch_size` (with
`batch_size ≥ 1`) and `process_event` returns `Ok`, then every buffer is
again strictly below `batch_size` afterwards (and `batch_size` itself is
unchanged): a buffer that reaches the threshold is flushed and emptied
before `process_event` returns `Ok`. -/
theorem process_event_preserves_buffer_bound
    (ch : ClickhouseSink) (now : Nat) (p : Processor) (event : IndexEvent)
    (hbs : 1 ≤ p.batch_size)
    (htx : p.tx_buffer.length < p.batch_size)
    (hacc : p.account_buffer.length < p.batch_size)
    (hslot : p.slot_buffer.length < p.batch_size)
    (hok : (processEvent ch now p event).1 = .ok ()) :
    (processEvent ch now p event).2.1.tx_buffer.length < p.batch_size ∧
    (processEvent ch now p event).2.1.account_buffer.length < p.batch_size ∧
    (processEvent ch now p event).2.1.slot_buffer.length < p.batch_size ∧
    (processEvent ch now p event).2.1.batch_size = p.batch_size := by
  have h0 : 0 < p.batch_size := hbs
  cases event with
  | Account a =>
    by_cases hth : p.batch_size ≤ (p.account_buffer ++ [transformAccount a]).length
    · cases hsink : ch.batch_insert_accounts (p.account_buffer ++ [transformAccount a]) with
      | ok u =>
        cases u
        simp only [processEvent, if_pos hth] at hok ⊢
        simp [flushAccounts, hsink, htx, hslot, h0]
      | error e =>
        simp only [processEvent, if_pos hth] at hok
        simp [flushAccounts, hsink] at hok
    · simp only [processEvent, if_neg hth] at hok ⊢
      simp only [List.length_append, List.length_cons, List.length_nil] at hth ⊢
      exact ⟨htx, by omega, hslot, trivial⟩
  | Transaction t =>
    by_cases hth : p.batch_size ≤ (p.tx_buffer ++ [transformTransaction now t]).length
    · cases hsink : ch.batch_insert_transactions (p.tx_buffer ++ [transformTransaction now t]) with
      | ok u =>
        cases u
        simp only [processEvent, if_pos hth] at hok ⊢
        simp [flushTransactions, hsink, hacc, hslot, h0]
      | error e =>
        simp only [processEvent, if_pos hth] at hok
        simp [flushTransactions, hsink] at hok
    · simp only [processEvent, if_neg hth] at hok ⊢
      simp only [List.length_append, List.length_cons, List.length_nil] at hth ⊢
      exact ⟨by omega, hacc, hslot, trivial⟩
  | Slot s =>
    by_cases hth : p.batch_size ≤ (p.slot_buffer ++ [transformSlot now s]).length
    · cases hsink : ch.batch_insert_slots (p.slot_buffer ++ [transformSlot now s]) with
      | ok u =>
        cases u
        simp only [processEvent, if_pos hth] at hok ⊢
        simp [flushSlots, hsink, htx, hacc, h0]
      | error e =>
        simp only [processEvent, if_pos hth] at hok
        simp [flushSlots, hsink] at hok
    · simp only [processEvent, if_neg hth] at hok ⊢
      simp only [List.length_append, List.length_cons, List.length_nil] at hth ⊢
      exact ⟨htx, hacc, by omega, trivial⟩
  | Block b => exact ⟨htx, hacc, hslot, rfl⟩

/-- Witness for C10 at the concrete threshold-crossing account arrival. -/
theorem process_event_preserves_buffer_bound_witness :
    (processEvent chOkW 0 pW (.Account accEvW)).2.1.tx_buffer.length < pW.batch_size ∧
    (processEvent chOkW 0 pW (.Account accEvW)).2.1.account_buffer.length < pW.batch_size ∧
    (processEvent chOkW 0 pW (.Account accEvW)).2.1.slot_buffer.length < pW.batch_size ∧
    (processEvent chOkW 0 pW (.Account accEvW)).2.1.batch_size = pW.batch_size :=
  process_event_preserves_buffer_bound chOkW 0 pW (.Account accEvW)
    (by simp [pW]) (by simp [pW]) (by simp [pW]) (by simp [pW])
    (by simp [processEvent, pW, flushAccounts, chOkW])

/-! ## C3 — a transaction envelope always yields an event, defaulted when
body or metadata is absent -/

/-- **C3.** Whenever the outer transaction envelope is present, decoding
produces some `SolanaTransaction`; and if the inner transaction body or
the metadata is absent, that event has `success = false`, `fee = none`,
`compute_units_consumed = none`, and empty balance, log, instruction and
account-key lists. -/
theorem transaction_envelope_always_yields_event
    (u : SubscribeUpdateTransaction) (info : SubscribeUpdateTransactionInfo)
    (h : u.transaction = some info) :
    ∃ ev, intoSolanaTransaction u = some ev ∧
      ((info.transaction = none ∨ info.meta = none) →
        ev.success = false ∧ ev.fee = none ∧ ev.compute_units_consumed = none ∧
        ev.pre_balances = [] ∧ ev.post_balances = [] ∧ ev.log_messages = [] ∧
        ev.instructions = [] ∧ ev.account_keys = []) := by
  simp only [intoSolanaTransaction, h]
  refine ⟨_, rfl, fun hdef => ?_⟩
  rcases hdef with h1 | h1
  · simp [h1]
  · rcases htx : info.transaction with _ | tx <;> simp [h1, htx]

/-- Witness for C3 at a concrete envelope whose metadata is absent. -/
theorem transaction_envelope_always_yields_event_witness :
    ∃ ev, intoSolanaTransaction txUpdNoMetaW = some ev ∧
      ((txInfoNoMetaW.transaction = none ∨ txInfoNoMetaW.meta = none) →
        ev.success = false ∧ ev.fee = none ∧ ev.compute_units_consumed = none ∧
        ev.pre_balances = [] ∧ ev.post_balances = [] ∧ ev.log_messages = [] ∧
        ev.instructions = [] ∧ ev.account_keys = []) :=
  transaction_envelope_always_yields_event txUpdNoMetaW txInfoNoMetaW rfl

/-! ## C7 — out-of-range program-id index yields an empty program_id -/

/-- **C7.** For a transaction update with body, metadata and message
present, every decoded instruction is `decodeInstruction` of the wire
instruction, and an instruction whose `program_id_index` is out of range
of the message's `account_keys` decodes to an empty `program_id`.  The
decoder `intoSolanaTransaction` is a total function — the source reaches
account keys only through bounds-checked lookups (`if idx < len` and
`get`), so decoding completes on all inputs with no out-of-bounds
access. -/
theorem out_of_range_program_id_yields_empty
    (u : SubscribeUpdateTransaction) (info : SubscribeUpdateTransactionInfo)
    (tx : WireTransaction) (meta : WireTransactionStatusMeta) (m : WireMessage)
    (h1 : u.transaction = some info) (h2 : info.transaction = some tx)
    (h3 : info.meta = some meta) (h4 : tx.message = some m)
    (instruction : WireCompiledInstruction) (hmem : instruction ∈ m.instructions)
    (hidx : m.account_keys.length ≤ instruction.program_id_index) :
    ∃ ev, intoSolanaTransaction u = some ev ∧
      ev.instructions = m.instructions.map (decodeInstruction m.account_keys) ∧
      decodeInstruction m.account_keys instruction ∈ ev.instructions ∧
      (decodeInstruction m.account_keys instruction).program_id = [] := by
  have hlt : ¬ instruction.program_id_index < m.account_keys.length := by omega
  simp only [intoSolanaTransaction, h1, h2, h3, h4]
  exact ⟨_, rfl, rfl, List.mem_map_of_mem _ hmem, by simp [decodeInstruction, hlt]⟩

/-- Witness for C7 at a concrete message with two account keys and a
program-id index of 5. -/
theorem out_of_range_program_id_yields_empty_witness :
    ∃ ev, intoSolanaTransaction txUpdFullW = some ev ∧
      ev.instructions = msgW.instructions.map (decodeInstruction msgW.account_keys) ∧
      decodeInstruction msgW.account_keys oorInstrW ∈ ev.instructions ∧
      (decodeInstruction msgW.account_keys oorInstrW).program_id = [] :=
  out_of_range_program_id_yields_empty txUpdFullW txInfoFullW _ metaW msgW
    rfl rfl rfl rfl oorInstrW (by simp [msgW]) (by simp [msgW, oorInstrW])

/-! ## C9 — account updates: silent skip on absent payload, base58/base64
encodings otherwise -/

/-- **C9.** An account update whose inner account sub-message is absent
decodes to no event and no error (`handle_account_update` still returns
`Ok`); one whose sub-message is present decodes to exactly one
`SolanaAccount` whose `pubkey` and `owner` are the base58 encodings of
the raw key bytes and whose `data` is the base64 encoding of the raw
data bytes. -/
theorem account_update_decode_skip_or_encode (now : Nat) (a : SubscribeUpdateAccount) :
    (a.account = none →
      intoSolanaAccount now a = none ∧ handleAccountUpdate now a = .ok ()) ∧
    (∀ info, a.account = some info →
      intoSolanaAccount now a = some
        { pubkey := bs58Encode info.pubkey
          lamports := info.lamports
          owner := bs58Encode info.owner
          executable := info.executable
          rent_epoch := info.rent_epoch
          data := base64Encode info.data
          write_version := info.write_version
          txn_signature := info.txn_signature.map bs58Encode
          timestamp := now } ∧
      handleAccountUpdate now a = .ok ()) := by
  constructor
  · intro h; exact ⟨by simp [intoSolanaAccount, h], by simp [handleAccountUpdate, intoSolanaAccount, h]⟩
  · intro info h
    exact ⟨by simp [intoSolanaAccount, h], by simp [handleAccountUpdate, intoSolanaAccount, h]⟩

/-- Witness for C9 at one absent-payload and one present-payload update. -/
theorem account_update_decode_skip_or_encode_witness :
    (intoSolanaAccount 0 accUpdNoneW = none ∧ handleAccountUpdate 0 accUpdNoneW = .ok ()) ∧
    (intoSolanaAccount 0 accUpdSomeW = some
        { pubkey := bs58Encode accInfoW.pubkey
          lamports := accInfoW.lamports
          owner := bs58Encode accInfoW.owner
          executable := accInfoW.executable
          rent_epoch := accInfoW.rent_epoch
          data := base64Encode accInfoW.data
          write_version := accInfoW.write_version
          txn_signature := accInfoW.txn_signature.map bs58Encode
          timestamp := 0 } ∧
      handleAccountUpdate 0 accUpdSomeW = .ok ()) :=
  ⟨(account_update_decode_skip_or_encode 0 accUpdNoneW).1 rfl,
   (account_update_decode_skip_or_encode 0 accUpdSomeW).2 accInfoW rfl⟩

/-! ## C4 — the registered transaction filter and failed transactions

In `SubscribeRequestFilterTransactions`, `failed: Some(false)` asks the
streaming source to deliver only transactions whose failed flag is
`false`, i.e. it excludes failed transactions at the filter level
(`None` would mean "no filtering on the failed flag").
`create_subscriptions` sets `failed: Some(false)`, so the claim that the
filter passes all transactions including failed ones is false. -/

/-- **C4 counterexample.** The single registered transaction filter has
`failed = Some(false)` — not `None` — so the subscription request does
request exclusion of failed transactions at the filter level. -/
theorem subscription_filter_excludes_failed_counterexample :
    createSubscriptions.transactions.map (fun kv => kv.2.failed) = [some false] ∧
    some false ≠ (none : Option Bool) := ⟨rfl, by decide⟩

/-- **C4 amended.** Every transaction filter in the registered
subscription request sets `failed = Some(false)` (and
`vote = Some(false)`), requesting exclusion of failed (and vote)
transactions at the filter level; independently of the filter, an
event's `success` is derived downstream from the metadata
(`meta.err.is_none()`). -/
theorem subscription_filter_excludes_failed_amended :
    (∀ kv ∈ createSubscriptions.transactions,
      kv.2.failed = some false ∧ kv.2.vote = some false) ∧
    (∀ (u : SubscribeUpdateTransaction) (info : SubscribeUpdateTransactionInfo)
        (tx : WireTransaction) (meta : WireTransactionStatusMeta),
      u.transaction = some info → info.transaction = some tx → info.meta = some meta →
      Option.map SolanaTransaction.success (intoSolanaTransaction u) =
        some meta.err.isNone) := by
  constructor
  · intro kv hkv
    simp only [createSubscriptions, List.mem_singleton] at hkv
    subst hkv
    exact ⟨rfl, rfl⟩
  · intro u info tx meta h1 h2 h3
    simp [intoSolanaTransaction, h1, h2, h3]

/-- Witness for the amended C4 at the concrete registered filter and at a
concrete successful transaction update. -/
theorem subscription_filter_excludes_failed_amended_witness :
    (dexsTxFilterW.failed = some false ∧ dexsTxFilterW.vote = some false) ∧
    Option.map SolanaTransaction.success (intoSolanaTransaction txUpdFullW) =
      some metaW.err.isNone :=
  ⟨(subscription_filter_excludes_failed_amended).1 ("dexs_transactions", dexsTxFilterW)
      (by simp [createSubscriptions, dexsTxFilterW]),
   (subscription_filter_excludes_failed_amended).2 txUpdFullW txInfoFullW _ metaW
      rfl rfl rfl⟩

/-! ## C5 — what the stream handler returns on a clean end -/

/-- `process_update` has no failure path: every handler ends in `Ok`. -/
theorem processUpdate_ok (now : Nat) (u : SubscribeUpdate) :
    processUpdate now u = .ok () := by
  rcases u with ⟨o⟩
  rcases o with _ | k
  · rfl
  · cases k with
    | account a =>
      cases h : intoSolanaAccount now a <;>
        simp [processUpdate, handleAccountUpdate, h]
    | transaction t =>
      cases h : intoSolanaTransaction t <;>
        simp [processUpdate, handleTransactionUpdate, h]
    | slot s => rfl
    | other => rfl

/-- **C5 counterexample.** On a cleanly ended stream (no error item) the
handler returns plain `Ok(())` to its caller — a silent success, the
clean end being only logged — so the caller is not informed of any
reportable condition through the return value. -/
theorem clean_stream_end_returns_ok_counterexample :
    handleGrpcStream 0 [] = .ok () ∧
    handleGrpcStream 0 [Except.ok { update_oneof := none }] = .ok () := ⟨rfl, rfl⟩

/-- **C5 amended.** When any stream item is an error the handler stops
and returns that error; but a clean end of stream (all items `Ok`,
stream exhausted) makes the handler return `Ok(())` to its caller — the
"gRPC stream closed by server" condition is only logged, not reported
through the return value. -/
theorem stream_error_stops_clean_end_silent_amended :
    (∀ (now : Nat) (pre : List SubscribeUpdate),
      handleGrpcStream now (pre.map Except.ok) = .ok ()) ∧
    (∀ (now : Nat) (pre : List SubscribeUpdate) (e : List Char)
        (rest : List (Except (List Char) SubscribeUpdate)),
      handleGrpcStream now (pre.map Except.ok ++ .error e :: rest) = .error e) := by
  constructor
  · intro now pre
    induction pre with
    | nil => rfl
    | cons u t ih => simp [handleGrpcStream, processUpdate_ok, ih]
  · intro now pre e rest
    induction pre with
    | nil => rfl
    | cons u t ih => simp [handleGrpcStream, processUpdate_ok, ih]

/-! ## C6 — the wait durations of the core stream loop -/

/-- **C6 counterexample.** After two consecutive stream errors the second
wait duration is 1 time unit, not `min(2^(2-1), 60) = 2`: the loop in
`core/src/main.rs` sleeps a constant 1 second per stream error and never
doubles. -/
theorem backoff_sequence_counterexample :
    mainStreamLoopSleeps [Except.error "err".toList, Except.error "err".toList] = [1, 1] ∧
    min (2 ^ (2 - 1)) 60 = 2 ∧ (1 : Nat) ≠ 2 := ⟨rfl, rfl, by decide⟩

/-- **C6 amended.** Every wait the core stream loop issues equals 1 time
unit — the delay is constant, never doubled and never near the claimed
60-unit cap — and waits are issued only for per-item stream errors: an
error-free (cleanly ending) stream issues no wait at all (and the loop
then exits rather than reconnecting). -/
theorem backoff_constant_delay_amended :
    (∀ (items : List (Except (List Char) SubscribeUpdate)) (d : Nat),
      d ∈ mainStreamLoopSleeps items → d = 1) ∧
    (∀ msgs : List SubscribeUpdate, mainStreamLoopSleeps (msgs.map Except.ok) = []) := by
  constructor
  · intro items d hd
    induction items with
    | nil => simp [mainStreamLoopSleeps] at hd
    | cons x rest ih =>
      cases x with
      | ok u =>
        simp only [mainStreamLoopSleeps] at hd
        exact ih hd
      | error e =>
        simp only [mainStreamLoopSleeps, List.mem_cons] at hd
        rcases hd with rfl | hd
        · rfl
        · exact ih hd
  · intro msgs
    induction msgs with
    | nil => rfl
    | cons m t ih => simpa [mainStreamLoopSleeps] using ih

/-! ## Round-trip lemmas for the serde_json embedding (towards C8) -/

theorem natToCharsAux_append (fuel : Nat) :
    ∀ (n : Nat) (acc extra : List Char),
      natToCharsAux fuel n acc ++ extra = natToCharsAux fuel n (acc ++ extra) := by
  induction fuel with
  | zero => intro n acc extra; rfl
  | succ fuel ih =>
    intro n acc extra
    by_cases h : n = 0
    · simp [natToCharsAux, h]
    · simp only [natToCharsAux, if_neg h]
      simpa using ih (n / 10) (digitChar (n % 10) :: acc) extra

theorem isDigitChar_digitChar (d : Nat) (h : d < 10) : isDigitChar (digitChar d) = true := by
  interval_cases d <;> decide

theorem toNat_digitChar (d : Nat) (h : d < 10) : (digitChar d).toNat - 48 = d := by
  interval_cases d <;> decide

theorem digitChar_ne_rbracket (d : Nat) (h : d < 10) : ¬ digitChar d = ']' := by
  interval_cases d <;> decide

theorem parseNatAux_cons_digit (acc : Nat) (c : Char) (rest : List Char)
    (h : isDigitChar c = true) :
    parseNatAux acc (c :: rest) = parseNatAux (acc * 10 + (c.toNat - 48)) rest := by
  simp [parseNatAux, h]

theorem parseNatAux_stop (acc : Nat) (r : List Char)
    (h : r.head? = some ',' ∨ r.head? = some ']') : parseNatAux acc r = (acc, r) := by
  cases r with
  | nil => rfl
  | cons c r' =>
    rcases h with h | h <;> (simp only [List.head?] at h; injection h with h; subst h; rfl)

theorem parseNatAux_natToCharsAux (fuel : Nat) :
    ∀ (n a : Nat) (suffix : List Char), n ≤ fuel →
      parseNatAux a (natToCharsAux fuel n suffix) =
        parseNatAux (a * 10 ^ numDigitsF fuel n + n) suffix := by
  induction fuel with
  | zero =>
    intro n a suffix hn
    have h0 : n = 0 := by omega
    subst h0
    simp [natToCharsAux, numDigitsF]
  | succ fuel ih =>
    intro n a suffix hn
    by_cases h : n = 0
    · subst h; simp [natToCharsAux, numDigitsF]
    · have hdiv : n / 10 ≤ fuel := by
        have := Nat.div_lt_self (Nat.pos_of_ne_zero h) (by omega : 1 < 10)
        omega
      have hm : n % 10 < 10 := Nat.mod_lt n (by omega)
      simp only [natToCharsAux, if_neg h, numDigitsF]
      rw [ih (n / 10) a (digitChar (n % 10) :: suffix) hdiv]
      rw [parseNatAux_cons_digit _ _ _ (isDigitChar_digitChar _ hm)]
      rw [toNat_digitChar _ hm]
      congr 1
      rw [pow_succ, ← mul_assoc]
      have key : ∀ q : Nat, (q + n / 10) * 10 + n % 10 = q * 10 + n := fun q => by omega
      exact key _

theorem natToCharsAux_head (fuel : Nat) :
    ∀ (n : Nat) (acc : List Char), 0 < n → n ≤ fuel →
      ∃ d, d < 10 ∧ ∃ t, natToCharsAux fuel n acc = digitChar d :: t := by
  induction fuel with
  | zero => intro n acc h1 h2; omega
  | succ fuel ih =>
    intro n acc h1 h2
    have hne : n ≠ 0 := by omega
    simp only [natToCharsAux, if_neg hne]
    by_cases hd : n / 10 = 0
    · rw [hd]
      cases fuel with
      | zero => exact ⟨n % 10, Nat.mod_lt n (by omega), acc, rfl⟩
      | succ fuel2 => exact ⟨n % 10, Nat.mod_lt n (by omega), acc, by simp [natToCharsAux]⟩
    · have hfu : n / 10 ≤ fuel := by
        have := Nat.div_lt_self h1 (by omega : 1 < 10)
        omega
      exact ih (n / 10) (digitChar (n % 10) :: acc) (Nat.pos_of_ne_zero hd) hfu

theorem natToChars_head_digit (n : Nat) :
    ∃ d, d < 10 ∧ ∃ t, natToChars n = digitChar d :: t := by
  by_cases h : n = 0
  · subst h; exact ⟨0, by omega, [], rfl⟩
  · simp only [natToChars, if_neg h]
    exact natToCharsAux_head n n [] (Nat.pos_of_ne_zero h) le_rfl

theorem natToChars_ne_nil (n : Nat) : natToChars n ≠ [] := by
  obtain ⟨d, _, t, ht⟩ := natToChars_head_digit n
  simp [ht]

theorem natToChars_head_ne_rbracket (n : Nat) (c : Char)
    (h : (natToChars n).head? = some c) : ¬ c = ']' := by
  obtain ⟨d, hd, t, ht⟩ := natToChars_head_digit n
  rw [ht] at h
  injection h with h
  subst h
  exact digitChar_ne_rbracket d hd

theorem parseJsonNat_roundtrip (n : Nat) (r : List Char)
    (h : r.head? = some ',' ∨ r.head? = some ']') :
    parseJsonNat (natToChars n ++ r) = some (n, r) := by
  by_cases h0 : n = 0
  · subst h0
    have h1 : parseJsonNat (natToChars 0 ++ r) = some (parseNatAux 0 r) := rfl
    rw [h1, parseNatAux_stop 0 r h]
  · have hpos : 0 < n := Nat.pos_of_ne_zero h0
    have happ : natToChars n ++ r = natToCharsAux n n r := by
      simpa [natToChars, if_neg h0] using natToCharsAux_append n n [] r
    obtain ⟨d, hd, t, ht⟩ := natToCharsAux_head n n r hpos le_rfl
    rw [happ, ht]
    simp only [parseJsonNat]
    rw [if_pos (isDigitChar_digitChar d hd)]
    rw [← ht]
    rw [parseNatAux_natToCharsAux n n 0 r le_rfl]
    simp only [Nat.zero_mul, Nat.zero_add]
    rw [parseNatAux_stop n r h]

theorem hexVal_hexDigitChar (x : Nat) (h : x < 16) : hexVal (hexDigitChar x) = some x := by
  interval_cases x <;> decide

theorem parseStringBody_quote (t : List Char) : parseStringBody ('"' :: t) = some ([], t) := by
  rw [parseStringBody.eq_def]; simp

theorem parseStringBody_literal (c : Char) (t : List Char)
    (h1 : ¬ c = '"') (h2 : ¬ c = '\\') :
    parseStringBody (c :: t) = (parseStringBody t).map (fun p => (c :: p.1, p.2)) := by
  rw [parseStringBody.eq_def]; simp [h1, h2]

theorem parseStringBody_esc (e : Char) (t : List Char) (he : ¬ e = 'u')
    (u : Char) (hu : unescapeChar e = some u) :
    parseStringBody ('\\' :: e :: t) = (parseStringBody t).map (fun p => (u :: p.1, p.2)) := by
  rw [parseStringBody.eq_def]; simp [he, hu]

theorem parseStringBody_unicode (h3 h4 : Char) (t : List Char) (a b : Nat)
    (ha : hexVal h3 = some a) (hb : hexVal h4 = some b) :
    parseStringBody ('\\' :: 'u' :: '0' :: '0' :: h3 :: h4 :: t) =
      (parseStringBody t).map (fun p => (Char.ofNat (a * 16 + b) :: p.1, p.2)) := by
  rw [parseStringBody.eq_def]
  simp [ha, hb, show hexVal '0' = some 0 from rfl]

theorem parseStringBody_escape (s : List Char) :
    ∀ rest : List Char, parseStringBody (escapeList s ++ '"' :: rest) = some (s, rest) := by
  induction s with
  | nil => intro rest; simp [escapeList, parseStringBody_quote]
  | cons c s ih =>
    intro rest
    show parseStringBody ((escapeChar c ++ escapeList s) ++ '"' :: rest) = _
    rw [List.append_assoc]
    by_cases h1 : c = '"'
    · subst h1
      rw [show escapeChar '"' = ['\\', '"'] from by decide]
      simp only [List.cons_append, List.nil_append]
      rw [parseStringBody_esc _ _ (by decide) _ (by decide : unescapeChar '"' = some '"'), ih]
      rfl
    · by_cases h2 : c = '\\'
      · subst h2
        rw [show escapeChar '\\' = ['\\', '\\'] from by decide]
        simp only [List.cons_append, List.nil_append]
        rw [parseStringBody_esc _ _ (by decide) _ (by decide : unescapeChar '\\' = some '\\'), ih]
        rfl
      · by_cases h3 : c = Char.ofNat 8
        · subst h3
          rw [show escapeChar (Char.ofNat 8) = ['\\', 'b'] from by decide]
          simp only [List.cons_append, List.nil_append]
          rw [parseStringBody_esc _ _ (by decide) _
            (by decide : unescapeChar 'b' = some (Char.ofNat 8)), ih]
          rfl
        · by_cases h4 : c = Char.ofNat 9
          · subst h4
            rw [show escapeChar (Char.ofNat 9) = ['\\', 't'] from by decide]
            simp only [List.cons_append, List.nil_append]
            rw [parseStringBody_esc _ _ (by decide) _
              (by decide : unescapeChar 't' = some (Char.ofNat 9)), ih]
            rfl
          · by_cases h5 : c = Char.ofNat 10
            · subst h5
              rw [show escapeChar (Char.ofNat 10) = ['\\', 'n'] from by decide]
              simp only [List.cons_append, List.nil_append]
              rw [parseStringBody_esc _ _ (by decide) _
                (by decide : unescapeChar 'n' = some (Char.ofNat 10)), ih]
              rfl
            · by_cases h6 : c = Char.ofNat 12
              · subst h6
                rw [show escapeChar (Char.ofNat 12) = ['\\', 'f'] from by decide]
                simp only [List.cons_append, List.nil_append]
                rw [parseStringBody_esc _ _ (by decide) _
                  (by decide : unescapeChar 'f' = some (Char.ofNat 12)), ih]
                rfl
              · by_cases h7 : c = Char.ofNat 13
                · subst h7
                  rw [show escapeChar (Char.ofNat 13) = ['\\', 'r'] from by decide]
                  simp only [List.cons_append, List.nil_append]
                  rw [parseStringBody_esc _ _ (by decide) _
                    (by decide : unescapeChar 'r' = some (Char.ofNat 13)), ih]
                  rfl
                · by_cases h8 : c.toNat < 32
                  · have e1 : c.toNat / 16 < 16 := by omega
                    have e2 : c.toNat % 16 < 16 := by omega
                    have hval : c.toNat / 16 * 16 + c.toNat % 16 = c.toNat := by omega
                    simp only [escapeChar, if_neg h1, if_neg h2, if_neg h3, if_neg h4,
                      if_neg h5, if_neg h6, if_neg h7, if_pos h8, List.cons_append,
                      List.nil_append]
                    rw [parseStringBody_unicode _ _ _ _ _
                      (hexVal_hexDigitChar _ e1) (hexVal_hexDigitChar _ e2), ih]
                    simp [hval, Char.ofNat_toNat]
                  · simp only [escapeChar, if_neg h1, if_neg h2, if_neg h3, if_neg h4,
                      if_neg h5, if_neg h6, if_neg h7, if_neg h8, List.cons_append,
                      List.nil_append]
                    rw [parseStringBody_literal c _ h1 h2, ih]
                    rfl

theorem parseJsonString_roundtrip (s : List Char) (rest : List Char) :
    parseJsonString (encodeJsonString s ++ rest) = some (s, rest) := by
  have : encodeJsonString s ++ rest = '"' :: (escapeList s ++ '"' :: rest) := by
    simp [encodeJsonString]
  rw [this]
  simp only [parseJsonString, if_true]
  exact parseStringBody_escape s rest

theorem encodeJsonString_ne_nil (s : List Char) : encodeJsonString s ≠ [] := by
  simp [encodeJsonString]

theorem encodeJsonString_head_ne_rbracket (s : List Char) (c : Char)
    (h : (encodeJsonString s).head? = some c) : ¬ c = ']' := by
  simp only [encodeJsonString, List.head?] at h
  injection h with h
  subst h
  decide

theorem encodeSep_head (enc : α → List Char) (henc : ∀ a, enc a ≠ []) (x : α) (xs : List α) :
    (encodeSep enc (x :: xs)).head? = (enc x).head? := by
  cases xs with
  | nil => simp [encodeSep]
  | cons y ys =>
    simp only [encodeSep]
    cases h : enc x with
    | nil => exact absurd h (henc x)
    | cons e et => simp [h]

theorem encodeSep_length_ge (enc : α → List Char) (henc : ∀ a, enc a ≠ []) :
    ∀ (xs : List α) (x : α), xs.length + 1 ≤ (encodeSep enc (x :: xs)).length := by
  intro xs
  induction xs with
  | nil =>
    intro x
    have := List.length_pos.mpr (henc x)
    simpa [encodeSep] using this
  | cons y ys ih =>
    intro x
    have h1 := ih y
    have h2 := List.length_pos.mpr (henc x)
    simp only [encodeSep, List.length_append, List.length_cons] at h1 ⊢
    omega

theorem parseListAux_roundtrip (pe : List Char → Option (α × List Char)) (enc : α → List Char)
    (hpe : ∀ (x : α) (r : List Char), r.head? = some ',' ∨ r.head? = some ']' →
      pe (enc x ++ r) = some (x, r)) :
    ∀ (xs : List α) (x : α) (rest : List Char) (fuel : Nat), xs.length < fuel →
      parseListAux pe fuel (encodeSep enc (x :: xs) ++ ']' :: rest) = some (x :: xs, rest) := by
  intro xs
  induction xs with
  | nil =>
    intro x rest fuel hf
    cases fuel with
    | zero => omega
    | succ fuel =>
      rw [show encodeSep enc [x] = enc x from by simp [encodeSep]]
      simp only [parseListAux]
      rw [hpe x (']' :: rest) (Or.inr rfl)]
      simp
  | cons y ys ih =>
    intro x rest fuel hf
    cases fuel with
    | zero => omega
    | succ fuel =>
      rw [show encodeSep enc (x :: y :: ys) = enc x ++ ',' :: encodeSep enc (y :: ys) from by
        simp [encodeSep]]
      simp only [List.append_assoc, List.cons_append]
      simp only [parseListAux]
      rw [hpe x (',' :: (encodeSep enc (y :: ys) ++ ']' :: rest)) (Or.inl rfl)]
      have hih := ih y rest fuel (by simp at hf ⊢; omega)
      simp [hih]

theorem parseJsonList_cons_step (pe : List Char → Option (α × List Char)) (L : List Char)
    (c0 : Char) (t0 : List Char) (hL : L = c0 :: t0) (hc0 : ¬ c0 = ']') :
    parseJsonList pe ('[' :: L) = parseListAux pe (L.length + 1) L := by
  subst hL
  rw [parseJsonList.eq_def]
  simp [hc0]

theorem parseJsonList_roundtrip (pe : List Char → Option (α × List Char)) (enc : α → List Char)
    (hpe : ∀ (x : α) (r : List Char), r.head? = some ',' ∨ r.head? = some ']' →
      pe (enc x ++ r) = some (x, r))
    (henc : ∀ a, enc a ≠ [])
    (hhead : ∀ (a : α) (c : Char), (enc a).head? = some c → ¬ c = ']') :
    ∀ (xs : List α) (rest : List Char),
      parseJsonList pe (encodeJsonList enc xs ++ rest) = some (xs, rest) := by
  intro xs rest
  cases xs with
  | nil =>
    rw [show encodeJsonList enc ([] : List α) ++ rest = '[' :: ']' :: rest from by
      simp [encodeJsonList, encodeSep]]
    rw [parseJsonList.eq_def]
    simp
  | cons x xs' =>
    rw [show encodeJsonList enc (x :: xs') ++ rest =
        '[' :: (encodeSep enc (x :: xs') ++ ']' :: rest) from by simp [encodeJsonList]]
    obtain ⟨c0, t0, h0⟩ : ∃ c0 t0, encodeSep enc (x :: xs') = c0 :: t0 := by
      cases h : encodeSep enc (x :: xs') with
      | nil =>
        have := encodeSep_length_ge enc henc xs' x
        rw [h] at this
        simp at this
      | cons c t => exact ⟨c, t, rfl⟩
    have hc0 : ¬ c0 = ']' := by
      apply hhead x
      have hh := encodeSep_head enc henc x xs'
      rw [h0] at hh
      exact hh.symm
    rw [parseJsonList_cons_step pe (encodeSep enc (x :: xs') ++ ']' :: rest) c0
      (t0 ++ ']' :: rest) (by rw [h0]; rfl) hc0]
    apply parseListAux_roundtrip pe enc hpe
    have hlen := encodeSep_length_ge enc henc xs' x
    simp only [List.length_append, List.length_cons]
    omega

theorem parseJsonList_nat (xs : List Nat) (rest : List Char) :
    parseJsonList parseJsonNat (jsonEncodeNatList xs ++ rest) = some (xs, rest) :=
  parseJsonList_roundtrip parseJsonNat natToChars parseJsonNat_roundtrip natToChars_ne_nil
    natToChars_head_ne_rbracket xs rest

theorem parseJsonList_string (xs : List (List Char)) (rest : List Char) :
    parseJsonList parseJsonString (jsonEncodeStringList xs ++ rest) = some (xs, rest) :=
  parseJsonList_roundtrip parseJsonString encodeJsonString
    (fun x r _ => parseJsonString_roundtrip x r) encodeJsonString_ne_nil
    encodeJsonString_head_ne_rbracket xs rest

theorem dropLead_append (pre : List Char) : ∀ l : List Char, dropLead pre (pre ++ l) = some l := by
  induction pre with
  | nil => intro l; rfl
  | cons p ps ih => intro l; simp [dropLead, ih]

theorem parseInstruction_roundtrip (i : TransactionInstruction) (rest : List Char) :
    parseInstruction (encodeInstruction i ++ rest) = some (i, rest) := by
  obtain ⟨pid, accs, dat⟩ := i
  simp only [encodeInstruction, List.append_assoc, List.singleton_append]
  simp only [parseInstruction, dropLead_append, parseJsonString_roundtrip, parseJsonList_string]
  simp

theorem encodeInstruction_head (i : TransactionInstruction) :
    (encodeInstruction i).head? = some '{' := rfl

theorem encodeInstruction_ne_nil (i : TransactionInstruction) : encodeInstruction i ≠ [] := by
  intro h
  have hh := encodeInstruction_head i
  rw [h] at hh
  simp at hh

theorem encodeInstruction_head_ne_rbracket (i : TransactionInstruction) (c : Char)
    (h : (encodeInstruction i).head? = some c) : ¬ c = ']' := by
  rw [encodeInstruction_head] at h
  injection h with h
  subst h
  decide

theorem parseJsonList_instruction (xs : List TransactionInstruction) (rest : List Char) :
    parseJsonList parseInstruction (jsonEncodeInstructionList xs ++ rest) = some (xs, rest) :=
  parseJsonList_roundtrip parseInstruction encodeInstruction
    (fun x r _ => parseInstruction_roundtrip x r) encodeInstruction_ne_nil
    encodeInstruction_head_ne_rbracket xs rest

theorem jsonDecodeNatList_roundtrip (xs : List Nat) :
    jsonDecodeNatList (jsonEncodeNatList xs) = some xs := by
  have h := parseJsonList_nat xs []
  rw [List.append_nil] at h
  simp [jsonDecodeNatList, h]

theorem jsonDecodeStringList_roundtrip (xs : List (List Char)) :
    jsonDecodeStringList (jsonEncodeStringList xs) = some xs := by
  have h := parseJsonList_string xs []
  rw [List.append_nil] at h
  simp [jsonDecodeStringList, h]

theorem jsonDecodeInstructionList_roundtrip (xs : List TransactionInstruction) :
    jsonDecodeInstructionList (jsonEncodeInstructionList xs) = some xs := by
  have h := parseJsonList_instruction xs []
  rw [List.append_nil] at h
  simp [jsonDecodeInstructionList, h]

/-! ## C8 — the serialized list fields deserialize back to the source
lists -/

/-- **C8.** For every `TransactionEvent` and transform time, each
list-valued field of the produced storage row — `pre_balances`,
`post_balances`, `log_messages`, `account_keys`, `instructions` — is a
valid serialized list: deserializing the produced text yields exactly
the source list (hence the same length and the same elements). -/
theorem transform_transaction_list_fields_roundtrip (now : Nat) (tx : SolanaTransaction) :
    jsonDecodeNatList (transformTransaction now tx).pre_balances = some tx.pre_balances ∧
    jsonDecodeNatList (transformTransaction now tx).post_balances = some tx.post_balances ∧
    jsonDecodeStringList (transformTransaction now tx).log_messages = some tx.log_messages ∧
    jsonDecodeStringList (transformTransaction now tx).account_keys = some tx.account_keys ∧
    jsonDecodeInstructionList (transformTransaction now tx).instructions =
      some tx.instructions :=
  ⟨jsonDecodeNatList_roundtrip _, jsonDecodeNatList_roundtrip _,
   jsonDecodeStringList_roundtrip _, jsonDecodeStringList_roundtrip _,
   jsonDecodeInstructionList_roundtrip _⟩

/-- Witness for the amended C6 at a concrete one-error stream. -/
theorem backoff_constant_delay_amended_witness :
    (1 : Nat) ∈ mainStreamLoopSleeps [Except.error "x".toList] ∧ (1 : Nat) = 1 :=
  ⟨by simp [mainStreamLoopSleeps],
   (backoff_constant_delay_amended).1 [Except.error "x".toList] 1
     (by simp [mainStreamLoopSleeps])⟩

end SolGrpcIndexer
